import Mathlib

/-!
Verification of the timeline state and collision-resolution engine:
a shallow embedding of `src/app/store/timelineStore.ts` and of the
collision/snapping utilities, together with proofs of the specified
properties.

Conventions of the embedding:
* JS numbers holding millisecond timestamps are modelled as `Int`
  (exact integer semantics).
* The zustand store's mutations return the new state; mutations that
  keep the state unchanged on a validation failure ("return state")
  are modelled as functions into `Option`, `none` being the rejection
  path (the spec's "returns false, state unchanged").
* `Date.now()` is an outside input; functions reading it take the
  observed clock value as an explicit argument.
-/

/-- Sentinel id of the placeholder lane (`NEW_LANE_ID` in `timelineStore.ts`). -/
def NEW_LANE_ID : String := "__new_lane__"

/-- Lane record (`TimelineGroup` in `timelineStore.ts`). -/
structure TimelineGroup where
  id : String
  title : String
deriving Repr, DecidableEq

/-- Task record (`TimelineItem` in `timelineStore.ts`); times are ms since epoch. -/
structure TimelineItem where
  id : String
  group : String
  title : String
  start_time : Int
  end_time : Int
  color : Option String := none
deriving Repr, DecidableEq

namespace TimelineStore

/-- Embedding of the store's `hasCollision(itemId, groupId, newStart, newEnd)`:
`items.some` of the per-item test, which skips the candidate's own id and
other lanes and reports `newStart < item.end_time && newEnd > item.start_time`. -/
def hasCollision (itemId groupId : String) (newStart newEnd : Int)
    (items : List TimelineItem) : Bool :=
  items.any fun item =>
    if item.id = itemId then false
    else if item.group ≠ groupId then false
    else decide (newStart < item.end_time) && decide (newEnd > item.start_time)

/-- Embedding of `moveItemToGroup(itemId, newGroupId, newStart)`.  The three
`return state` rejection paths of the source (placeholder target, unknown id,
collision) become `none`; acceptance returns the mapped item list. -/
def moveItemToGroup (itemId newGroupId : String) (newStart : Int)
    (items : List TimelineItem) : Option (List TimelineItem) :=
  if newGroupId = NEW_LANE_ID then none
  else
    match items.find? (fun i => i.id = itemId) with
    | none => none
    | some item =>
      let duration := item.end_time - item.start_time
      let newEnd := newStart + duration
      if hasCollision itemId newGroupId newStart newEnd items then none
      else
        some (items.map fun i =>
          if i.id = itemId then
            { i with group := newGroupId, start_time := newStart, end_time := newEnd }
          else i)

/-- The `"left" | "right"` resize-edge type of the source. -/
inductive ResizeEdge where
  | left
  | right
deriving Repr, DecidableEq

/-- Embedding of `resizeItem(itemId, newTime, edge)`: the proposed interval
keeps the found item's opposite boundary; rejection (`none`) happens on
unknown id or collision, and acceptance maps the new boundaries over the
items with the given id. -/
def resizeItem (itemId : String) (newTime : Int) (edge : ResizeEdge)
    (items : List TimelineItem) : Option (List TimelineItem) :=
  match items.find? (fun i => i.id = itemId) with
  | none => none
  | some item =>
    let newStart := match edge with | .left => newTime | .right => item.start_time
    let newEnd := match edge with | .left => item.end_time | .right => newTime
    if hasCollision itemId item.group newStart newEnd items then none
    else
      some (items.map fun i =>
        if i.id = itemId then { i with start_time := newStart, end_time := newEnd }
        else i)

/-- Comparator passed to `Array.prototype.sort` in `createGroup`:
`(a, b) => a.id === NEW_LANE_ID ? 1 : b.id === NEW_LANE_ID ? -1 : 0`. -/
def jsCompare (a b : TimelineGroup) : Int :=
  if a.id = NEW_LANE_ID then 1 else if b.id = NEW_LANE_ID then -1 else 0

/-- Stable insertion used to model `Array.prototype.sort`: `x` is placed
before the first element strictly greater than it (comparator `< 0`),
hence after every element comparing equal — the ECMAScript-mandated
stable order among the lanes already placed. -/
def sortInsert (cmp : α → α → Int) : List α → α → List α
  | [], x => [x]
  | y :: ys, x => if cmp x y < 0 then x :: y :: ys else y :: sortInsert cmp ys x

/-- Model of the (stable, per ECMAScript 2019) `Array.prototype.sort`:
insert the elements left to right into an initially empty list. -/
def jsSort (cmp : α → α → Int) (l : List α) : List α :=
  l.foldl (sortInsert cmp) []

/-- Embedding of `createGroup(title?)`.  The source reads `Date.now()` to
build the id `group-$\x7bDate.now()\x7d`; the observed clock value is the
explicit argument `now`.  Returns the new id and the re-sorted lane list. -/
def createGroup (title : String) (now : Nat) (groups : List TimelineGroup) :
    String × List TimelineGroup :=
  let newId := "group-" ++ toString now
  (newId, jsSort jsCompare (groups ++ [{ id := newId, title := title }]))

/-- Embedding of `updateGroup(groupId, newTitle)`: no-op on the placeholder
lane, otherwise rewrites the title of the lanes with the given id. -/
def updateGroup (groupId newTitle : String) (groups : List TimelineGroup) :
    List TimelineGroup :=
  if groupId = NEW_LANE_ID then groups
  else
    groups.map fun g =>
      if g.id = groupId then { g with title := newTitle } else g

end TimelineStore

namespace TimelineUtils

/-- Embedding of the standalone collision utility `hasCollision(moving, items)`:
skips same-id and other-lane items and reports
`!(moving.end_time <= item.start_time || moving.start_time >= item.end_time)`. -/
def hasCollision (moving : TimelineItem) (items : List TimelineItem) : Bool :=
  items.any fun item =>
    if item.id = moving.id ∨ item.group ≠ moving.group then false
    else
      !(decide (moving.end_time ≤ item.start_time)
        || decide (moving.start_time ≥ item.end_time))

/-- JS `Math.round` applied to the rational `num / den` for `den > 0`:
`Math.round x = ⌊x + 1/2⌋` (ties toward +∞), and
`⌊num/den + 1/2⌋ = ⌊(2*num + den) / (2*den)⌋`, i.e. flooring division.
The embedding uses exact rational semantics for the division. -/
def mathRound (num den : Int) : Int :=
  Int.fdiv (2 * num + den) (2 * den)

/-- Embedding of `snapToMinutes(timestamp, minutes)`:
`ms = minutes * 60 * 1000; Math.round(timestamp / ms) * ms`. -/
def snapToMinutes (timestamp minutes : Int) : Int :=
  let ms := minutes * 60 * 1000
  mathRound timestamp ms * ms

end TimelineUtils

/-- The spec's global non-overlap invariant (§3): any two tasks with
different ids sharing a lane have non-overlapping half-open intervals,
overlap being `s1 < e2 AND s2 < e1`. -/
def noOverlap (items : List TimelineItem) : Prop :=
  ∀ a ∈ items, ∀ b ∈ items, a.id ≠ b.id → a.group = b.group →
    ¬(a.start_time < b.end_time ∧ b.start_time < a.end_time)

instance noOverlapDecidable (items : List TimelineItem) : Decidable (noOverlap items) := by
  unfold noOverlap
  exact inferInstance

/-- Digits of a natural number base 10, most significant first; clean
well-founded formulation of core's fuelled `Nat.toDigitsCore`. -/
def decDigits (n : Nat) : List Char :=
  if h : n < 10 then [Nat.digitChar n]
  else
    have : n / 10 < n := Nat.div_lt_self (by omega) (by omega)
    decDigits (n / 10) ++ [Nat.digitChar (n % 10)]

/-- Numeric value of a decimal digit character. -/
def digitVal (c : Char) : Nat := c.toNat - '0'.toNat

/-- Value of a most-significant-first decimal digit string. -/
def charsVal (l : List Char) : Nat :=
  l.foldl (fun a c => a * 10 + digitVal c) 0

/-- Duplicate-id state showing that the non-overlap invariant alone is not
inductive for `resizeItem`: two tasks share id `"a"` in different lanes. -/
def dupIdItems : List TimelineItem :=
  [ { id := "a", group := "g1", title := "A", start_time := 0, end_time := 10 },
    { id := "a", group := "g2", title := "B", start_time := 0, end_time := 10 },
    { id := "c", group := "g2", title := "C", start_time := 20, end_time := 30 } ]

namespace TimelineStore

theorem hasCollision_true_iff (itemId groupId : String) (ns ne : Int)
    (items : List TimelineItem) :
    hasCollision itemId groupId ns ne items = true ↔
      ∃ x ∈ items, x.id ≠ itemId ∧ x.group = groupId ∧
        ns < x.end_time ∧ x.start_time < ne := by
  simp only [hasCollision, List.any_eq_true]
  constructor
  · rintro ⟨x, hx, hpx⟩
    refine ⟨x, hx, ?_⟩
    by_cases h1 : x.id = itemId
    · simp [h1] at hpx
    · by_cases h2 : x.group = groupId
      · simp only [h1, if_false, h2, ite_not, Bool.and_eq_true, decide_eq_true_eq] at hpx
        simp [h1, h2] at hpx ⊢
        omega
      · simp [h1, h2] at hpx
  · rintro ⟨x, hx, h1, h2, h3, h4⟩
    exact ⟨x, hx, by simp [h1, h2, h3, h4]⟩

theorem hasCollision_false_iff (itemId groupId : String) (ns ne : Int)
    (items : List TimelineItem) :
    hasCollision itemId groupId ns ne items = false ↔
      ∀ x ∈ items, x.id ≠ itemId → x.group = groupId →
        ¬(ns < x.end_time ∧ x.start_time < ne) := by
  rw [← Bool.not_eq_true, hasCollision_true_iff]
  constructor
  · intro h x hx h1 h2 hov
    exact h ⟨x, hx, h1, h2, hov.1, hov.2⟩
  · rintro h ⟨x, hx, h1, h2, h3, h4⟩
    exact h x hx h1 h2 ⟨h3, h4⟩

end TimelineStore

/-- C5: the store's `hasCollision` returns `true` iff some task in the
collection has group `groupId`, an id different from `itemId`, and an interval
overlapping `[newStart, newEnd)` under the half-open test `s1 < e2 AND s2 < e1`;
and a task touching the candidate exactly at a boundary is never reported. -/
theorem hasCollision_characterization (itemId groupId : String) (ns ne : Int)
    (items : List TimelineItem) :
    (TimelineStore.hasCollision itemId groupId ns ne items = true ↔
      ∃ x ∈ items, x.id ≠ itemId ∧ x.group = groupId ∧
        ns < x.end_time ∧ x.start_time < ne) ∧
    (∀ x : TimelineItem, x.start_time = ne ∨ x.end_time = ns →
      TimelineStore.hasCollision itemId groupId ns ne [x] = false) := by
  refine ⟨TimelineStore.hasCollision_true_iff itemId groupId ns ne items, ?_⟩
  intro x hx
  rw [TimelineStore.hasCollision_false_iff]
  intro y hy h1 h2 hov
  simp only [List.mem_singleton] at hy
  subst hy
  rcases hx with h | h <;> omega

/-- Witness for C5: a task starting exactly where the candidate ends is not a
collision. -/
theorem hasCollision_characterization_witness :
    TimelineStore.hasCollision "1" "lane-1" 0 10
      [{ id := "2", group := "lane-1", title := "B",
         start_time := 10, end_time := 20 }] = false :=
  (hasCollision_characterization "1" "lane-1" 0 10 []).2
    { id := "2", group := "lane-1", title := "B", start_time := 10, end_time := 20 }
    (Or.inl rfl)

/-- C10: the store's collision test and the standalone utility collision test
agree on every candidate task and every task list. -/
theorem hasCollision_store_eq_util (moving : TimelineItem) (items : List TimelineItem) :
    TimelineStore.hasCollision moving.id moving.group moving.start_time moving.end_time items
      = TimelineUtils.hasCollision moving items := by
  unfold TimelineStore.hasCollision TimelineUtils.hasCollision
  congr 1
  funext item
  by_cases h1 : item.id = moving.id <;> by_cases h2 : item.group = moving.group <;>
    by_cases h3 : moving.start_time < item.end_time <;>
    by_cases h4 : moving.end_time > item.start_time <;>
    simp [h1, h2, h3, h4]
  omega

/-- Characterization of `moveItemToGroup` once the target lane is legal and the
task was found: it is the collision-guarded update of the matching items. -/
theorem moveItemToGroup_eq_ite (itemId g : String) (s : Int)
    (items : List TimelineItem) (item : TimelineItem)
    (hg : g ≠ NEW_LANE_ID)
    (hf : items.find? (fun i => i.id = itemId) = some item) :
    TimelineStore.moveItemToGroup itemId g s items =
      (if TimelineStore.hasCollision itemId g s
          (s + (item.end_time - item.start_time)) items
       then none
       else some (items.map fun i =>
          if i.id = itemId then
            { i with group := g, start_time := s,
                     end_time := s + (item.end_time - item.start_time) }
          else i)) := by
  simp [TimelineStore.moveItemToGroup, hg, hf]

/-- A move targeting the placeholder lane is always rejected. -/
theorem move_none_of_placeholder (itemId g : String) (s : Int)
    (items : List TimelineItem) (hg : g = NEW_LANE_ID) :
    TimelineStore.moveItemToGroup itemId g s items = none := by
  simp [TimelineStore.moveItemToGroup, hg]

/-- A move of an unknown task id is always rejected. -/
theorem move_none_of_not_found (itemId g : String) (s : Int)
    (items : List TimelineItem)
    (hf : items.find? (fun i => i.id = itemId) = none) :
    TimelineStore.moveItemToGroup itemId g s items = none := by
  simp [TimelineStore.moveItemToGroup, hf]

/-- A resize of an unknown task id is always rejected. -/
theorem resize_none_of_not_found (itemId : String) (t : Int)
    (edge : TimelineStore.ResizeEdge) (items : List TimelineItem)
    (hf : items.find? (fun i => i.id = itemId) = none) :
    TimelineStore.resizeItem itemId t edge items = none := by
  simp [TimelineStore.resizeItem, hf]

/-- Characterization of `resizeItem` once the task was found: it is the
collision-guarded boundary update of the matching items. -/
theorem resizeItem_eq_ite (itemId : String) (t : Int)
    (edge : TimelineStore.ResizeEdge) (items : List TimelineItem)
    (item : TimelineItem)
    (hf : items.find? (fun i => i.id = itemId) = some item) :
    TimelineStore.resizeItem itemId t edge items =
      (if TimelineStore.hasCollision itemId item.group
          (match edge with | .left => t | .right => item.start_time)
          (match edge with | .left => item.end_time | .right => t) items
       then none
       else some (items.map fun i =>
          if i.id = itemId then
            { i with
              start_time := match edge with | .left => t | .right => item.start_time,
              end_time := match edge with | .left => item.end_time | .right => t }
          else i)) := by
  simp [TimelineStore.resizeItem, hf]

/-- C2: `moveItemToGroup` rejects — leaving the state unchanged (`none`) —
exactly when the target lane is the placeholder sentinel, the task id is
unknown, or the new placement collides in the target lane; on acceptance it
is precisely the update of the matching task's group and times; and moving a
task onto its own current lane and start time, in a state satisfying the
non-overlap invariant, is never rejected as a collision. -/
theorem moveItemToGroup_spec (itemId g : String) (s : Int)
    (items : List TimelineItem) :
    (g = NEW_LANE_ID → TimelineStore.moveItemToGroup itemId g s items = none) ∧
    (items.find? (fun i => i.id = itemId) = none →
      TimelineStore.moveItemToGroup itemId g s items = none) ∧
    (∀ item, items.find? (fun i => i.id = itemId) = some item → g ≠ NEW_LANE_ID →
      TimelineStore.moveItemToGroup itemId g s items =
        (if TimelineStore.hasCollision itemId g s
            (s + (item.end_time - item.start_time)) items
         then none
         else some (items.map fun i =>
            if i.id = itemId then
              { i with group := g, start_time := s,
                       end_time := s + (item.end_time - item.start_time) }
            else i))) ∧
    (∀ item, items.find? (fun i => i.id = itemId) = some item →
      item.group ≠ NEW_LANE_ID → noOverlap items →
      (TimelineStore.moveItemToGroup itemId item.group item.start_time items).isSome
        = true) := by
  refine ⟨?_, ?_, ?_, ?_⟩
  · intro h
    simp [TimelineStore.moveItemToGroup, h]
  · intro h
    simp [TimelineStore.moveItemToGroup, h]
  · intro item hf hg
    exact moveItemToGroup_eq_ite itemId g s items item hg hf
  · intro item hf hgrp hinv
    have hid : item.id = itemId := by
      have := List.find?_some hf
      simpa using this
    have hmem : item ∈ items := List.mem_of_find?_eq_some hf
    have harith : item.start_time + (item.end_time - item.start_time)
        = item.end_time := by ring
    have hc : TimelineStore.hasCollision itemId item.group item.start_time
        (item.start_time + (item.end_time - item.start_time)) items = false := by
      rw [harith, TimelineStore.hasCollision_false_iff]
      intro x hx h1 h2 hov
      exact hinv item hmem x hx (by rw [hid]; exact fun hh => h1 hh.symm) h2.symm hov
    rw [moveItemToGroup_eq_ite itemId item.group item.start_time items item hgrp hf, hc]
    simp

/-- Witness for C2: a self-move in a one-task state is accepted. -/
theorem moveItemToGroup_spec_witness :
    (TimelineStore.moveItemToGroup "1" "lane-1" 0
      [{ id := "1", group := "lane-1", title := "T",
         start_time := 0, end_time := 10 }]).isSome = true :=
  (moveItemToGroup_spec "1" "x" 0
      [{ id := "1", group := "lane-1", title := "T",
         start_time := 0, end_time := 10 }]).2.2.2
    { id := "1", group := "lane-1", title := "T", start_time := 0, end_time := 10 }
    (by decide) (by decide) (by decide)

/-- Mapping an id-preserving function over the items commutes with looking a
task up by id. -/
theorem find?_id_map (itemId : String) (f : TimelineItem → TimelineItem)
    (hfid : ∀ i, (f i).id = i.id) (items : List TimelineItem) (item : TimelineItem)
    (hf : items.find? (fun i => i.id = itemId) = some item) :
    (items.map f).find? (fun i => i.id = itemId) = some (f item) := by
  induction items with
  | nil => exact absurd hf (by simp)
  | cons x xs ih =>
    by_cases h : x.id = itemId
    · rw [List.find?_cons_of_pos _ (by simpa using h)] at hf
      have hx : x = item := Option.some.inj hf
      subst hx
      rw [List.map_cons, List.find?_cons_of_pos _ (by simp [hfid, h])]
    · rw [List.find?_cons_of_neg _ (by simpa using h)] at hf
      rw [List.map_cons, List.find?_cons_of_neg _ (by simp [hfid, h])]
      exact ih hf

/-- C3: whenever `moveItemToGroup` succeeds, the moved task keeps its
duration: the task found under `itemId` in the new state satisfies
`end_time - start_time = old end_time - old start_time`. -/
theorem moveItemToGroup_preserves_duration (itemId g : String) (s : Int)
    (items res : List TimelineItem) (item : TimelineItem)
    (hf : items.find? (fun i => i.id = itemId) = some item)
    (hm : TimelineStore.moveItemToGroup itemId g s items = some res) :
    ∃ moved : TimelineItem, res.find? (fun i => i.id = itemId) = some moved ∧
      moved.end_time - moved.start_time = item.end_time - item.start_time := by
  have hg : g ≠ NEW_LANE_ID := by
    intro h
    rw [move_none_of_placeholder itemId g s items h] at hm
    exact Option.noConfusion hm
  rw [moveItemToGroup_eq_ite itemId g s items item hg hf] at hm
  by_cases hc : TimelineStore.hasCollision itemId g s
      (s + (item.end_time - item.start_time)) items
  · rw [if_pos hc] at hm
    exact Option.noConfusion hm
  · rw [if_neg hc] at hm
    have hres := Option.some.inj hm
    have hid : item.id = itemId := by
      have := List.find?_some hf
      simpa using this
    subst hres
    refine ⟨_, find?_id_map itemId _ ?_ items item hf, ?_⟩
    · intro i
      by_cases h : i.id = itemId <;> simp [h]
    · simp [hid]

/-- Witness for C3: moving a one-task state preserves the task's duration. -/
theorem moveItemToGroup_preserves_duration_witness :
    ∃ moved : TimelineItem,
      (List.find? (fun i => i.id = "1")
        ([{ id := "1", group := "lane-2", title := "T",
            start_time := 5, end_time := 15, color := none }] : List TimelineItem))
        = some moved ∧
      moved.end_time - moved.start_time =
        ({ id := "1", group := "lane-1", title := "T", start_time := 0,
           end_time := 10, color := none } : TimelineItem).end_time -
        ({ id := "1", group := "lane-1", title := "T", start_time := 0,
           end_time := 10, color := none } : TimelineItem).start_time :=
  moveItemToGroup_preserves_duration "1" "lane-2" 5
    [{ id := "1", group := "lane-1", title := "T",
       start_time := 0, end_time := 10, color := none }]
    [{ id := "1", group := "lane-2", title := "T",
       start_time := 5, end_time := 15, color := none }]
    { id := "1", group := "lane-1", title := "T",
      start_time := 0, end_time := 10, color := none }
    (by decide) (by decide)

/-- C4: `resizeItem` proposes `[newTime, end_time)` for the left edge and
`[start_time, newTime)` for the right edge; it rejects (`none`, state
unchanged) exactly when the task id is unknown or the proposed interval
collides in the task's current lane — an inverted interval alone is never
rejected — and on acceptance it is precisely the boundary update of the
matching task. -/
theorem resizeItem_spec (itemId : String) (t : Int)
    (edge : TimelineStore.ResizeEdge) (items : List TimelineItem) :
    (items.find? (fun i => i.id = itemId) = none →
      TimelineStore.resizeItem itemId t edge items = none) ∧
    (∀ item, items.find? (fun i => i.id = itemId) = some item →
      TimelineStore.resizeItem itemId t edge items =
        (if TimelineStore.hasCollision itemId item.group
            (match edge with | .left => t | .right => item.start_time)
            (match edge with | .left => item.end_time | .right => t) items
         then none
         else some (items.map fun i =>
            if i.id = itemId then
              { i with
                start_time := match edge with | .left => t | .right => item.start_time,
                end_time := match edge with | .left => item.end_time | .right => t }
            else i))) := by
  constructor
  · intro h
    simp [TimelineStore.resizeItem, h]
  · intro item hf
    simp [TimelineStore.resizeItem, hf]

/-- Witness for C4: the spec's concrete rejection scenario — growing task 1
to `[0, 4500)` collides with task 2 at `[4000, 8000)` and is rejected. -/
theorem resizeItem_spec_witness :
    TimelineStore.resizeItem "1" 4500 .right
      [{ id := "1", group := "lane-1", title := "A",
         start_time := 0, end_time := 4000, color := none },
       { id := "2", group := "lane-1", title := "B",
         start_time := 4000, end_time := 8000, color := none }] = none := by
  rw [(resizeItem_spec "1" 4500 .right
      [{ id := "1", group := "lane-1", title := "A",
         start_time := 0, end_time := 4000, color := none },
       { id := "2", group := "lane-1", title := "B",
         start_time := 4000, end_time := 8000, color := none }]).2
    { id := "1", group := "lane-1", title := "A",
      start_time := 0, end_time := 4000, color := none }
    (by decide)]
  decide

/-- Updating the items with a given id to a fixed collision-checked placement
preserves the non-overlap invariant. -/
theorem noOverlap_map_update (items : List TimelineItem) (itemId g2 : String)
    (ns ne : Int) (hinv : noOverlap items)
    (hc : TimelineStore.hasCollision itemId g2 ns ne items = false) :
    noOverlap (items.map fun i =>
      if i.id = itemId then { i with group := g2, start_time := ns, end_time := ne }
      else i) := by
  have hc2 := (TimelineStore.hasCollision_false_iff itemId g2 ns ne items).1 hc
  intro a ha b hb hab hg
  rcases List.mem_map.1 ha with ⟨a0, ha0, rfl⟩
  rcases List.mem_map.1 hb with ⟨b0, hb0, rfl⟩
  by_cases h1 : a0.id = itemId <;> by_cases h2 : b0.id = itemId <;>
      simp only [h1, h2, if_true, if_false, ite_true, ite_false] at hab hg ⊢
  · exact absurd rfl hab
  · intro hov
    exact hc2 b0 hb0 (fun hh => hab hh.symm) hg.symm (by simpa using hov)
  · intro hov
    exact hc2 a0 ha0 h1 hg ⟨hov.2, hov.1⟩
  · exact hinv a0 ha0 b0 hb0 hab hg

/-- In a list whose ids are pairwise distinct, two members with the same id
are the same task. -/
theorem eq_of_same_id (items : List TimelineItem)
    (hnd : (items.map TimelineItem.id).Nodup) :
    ∀ a ∈ items, ∀ b ∈ items, a.id = b.id → a = b := by
  induction items with
  | nil => intro a ha; exact absurd ha (by simp)
  | cons x xs ih =>
    rw [List.map_cons, List.nodup_cons] at hnd
    intro a ha b hb hid
    rcases List.mem_cons.1 ha with rfl | ha0 <;> rcases List.mem_cons.1 hb with rfl | hb0
    · rfl
    · exact absurd (hid ▸ List.mem_map_of_mem TimelineItem.id hb0) hnd.1
    · exact absurd (hid ▸ List.mem_map_of_mem TimelineItem.id ha0) hnd.1
    · exact ih hnd.2 a ha0 b hb0 hid

/-- Setting the times of the (unique) item with a given id to a placement
collision-checked against that item's own lane preserves the invariant. -/
theorem noOverlap_map_setTimes (items : List TimelineItem) (itemId : String)
    (item : TimelineItem) (ns ne : Int)
    (hnd : (items.map TimelineItem.id).Nodup) (hinv : noOverlap items)
    (hmem : item ∈ items) (hid : item.id = itemId)
    (hc : TimelineStore.hasCollision itemId item.group ns ne items = false) :
    noOverlap (items.map fun i =>
      if i.id = itemId then { i with start_time := ns, end_time := ne }
      else i) := by
  have hmapeq : (items.map fun i =>
      if i.id = itemId then { i with start_time := ns, end_time := ne } else i)
      = items.map fun i =>
        if i.id = itemId then
          { i with group := item.group, start_time := ns, end_time := ne }
        else i := by
    apply List.map_congr_left
    intro i hi
    by_cases h : i.id = itemId
    · have hieq : i = item := eq_of_same_id items hnd i hi item hmem (h.trans hid.symm)
      subst hieq
      simp [h]
    · simp [h]
  rw [hmapeq]
  exact noOverlap_map_update items itemId item.group ns ne hinv hc

/-- C1 counterexample: the claim quantifies over every state satisfying the
non-overlap invariant, which does not exclude duplicated task ids; from such
a state (`dupIdItems`), `resizeItem` collision-checks only the first task
carrying the id but rewrites the times of every task carrying it, producing
a state that violates the invariant. -/
theorem resizeItem_breaks_noOverlap :
    noOverlap dupIdItems ∧
    ¬ noOverlap ((TimelineStore.resizeItem "a" 25 .right dupIdItems).getD dupIdItems)
    := by decide

/-- C1 (amended): in a state with pairwise-distinct task ids (as the data
model requires) satisfying the global non-overlap invariant, every
`moveItemToGroup` call and every `resizeItem` call — accepted or rejected —
leaves the invariant holding in the resulting state. -/
theorem moveResize_preserve_noOverlap (items : List TimelineItem)
    (hnd : (items.map TimelineItem.id).Nodup) (hinv : noOverlap items)
    (itemId newGroupId : String) (newStart newTime : Int)
    (edge : TimelineStore.ResizeEdge) :
    noOverlap ((TimelineStore.moveItemToGroup itemId newGroupId newStart items).getD items) ∧
    noOverlap ((TimelineStore.resizeItem itemId newTime edge items).getD items) := by
  constructor
  · by_cases hg : newGroupId = NEW_LANE_ID
    · rw [move_none_of_placeholder itemId newGroupId newStart items hg]
      exact hinv
    · rcases hfind : items.find? (fun i => i.id = itemId) with _ | item
      · rw [move_none_of_not_found itemId newGroupId newStart items hfind]
        exact hinv
      · rw [moveItemToGroup_eq_ite itemId newGroupId newStart items item hg hfind]
        rcases hcol : TimelineStore.hasCollision itemId newGroupId newStart
            (newStart + (item.end_time - item.start_time)) items
        · rw [if_neg (by simp [hcol])]
          exact noOverlap_map_update items itemId newGroupId newStart
            (newStart + (item.end_time - item.start_time)) hinv hcol
        · rw [if_pos (by simp [hcol])]
          exact hinv
  · rcases hfind : items.find? (fun i => i.id = itemId) with _ | item
    · rw [resize_none_of_not_found itemId newTime edge items hfind]
      exact hinv
    · have hid : item.id = itemId := by
        have := List.find?_some hfind
        simpa using this
      have hmem : item ∈ items := List.mem_of_find?_eq_some hfind
      cases edge with
      | left =>
        simp only [TimelineStore.resizeItem, hfind]
        rcases hcol : TimelineStore.hasCollision itemId item.group newTime
            item.end_time items
        · rw [if_neg (by simp [hcol]), Option.getD_some]
          exact noOverlap_map_setTimes items itemId item newTime item.end_time
            hnd hinv hmem hid hcol
        · rw [if_pos (by simp [hcol])]
          exact hinv
      | right =>
        simp only [TimelineStore.resizeItem, hfind]
        rcases hcol : TimelineStore.hasCollision itemId item.group item.start_time
            newTime items
        · rw [if_neg (by simp [hcol]), Option.getD_some]
          exact noOverlap_map_setTimes items itemId item item.start_time newTime
            hnd hinv hmem hid hcol
        · rw [if_pos (by simp [hcol])]
          exact hinv

/-- Witness for C1 (amended): a two-task unique-id state keeps the invariant
through a move and a resize. -/
theorem moveResize_preserve_noOverlap_witness :
    ((([{ id := "1", group := "lane-1", title := "A",
          start_time := 0, end_time := 10, color := none },
        { id := "2", group := "lane-1", title := "B",
          start_time := 10, end_time := 20, color := none }] :
        List TimelineItem).map TimelineItem.id).Nodup ∧
      noOverlap
        [{ id := "1", group := "lane-1", title := "A",
           start_time := 0, end_time := 10, color := none },
         { id := "2", group := "lane-1", title := "B",
           start_time := 10, end_time := 20, color := none }]) ∧
    (noOverlap ((TimelineStore.moveItemToGroup "1" "lane-2" 5
        [{ id := "1", group := "lane-1", title := "A",
           start_time := 0, end_time := 10, color := none },
         { id := "2", group := "lane-1", title := "B",
           start_time := 10, end_time := 20, color := none }]).getD
        [{ id := "1", group := "lane-1", title := "A",
           start_time := 0, end_time := 10, color := none },
         { id := "2", group := "lane-1", title := "B",
           start_time := 10, end_time := 20, color := none }]) ∧
      noOverlap ((TimelineStore.resizeItem "1" 8 .right
        [{ id := "1", group := "lane-1", title := "A",
           start_time := 0, end_time := 10, color := none },
         { id := "2", group := "lane-1", title := "B",
           start_time := 10, end_time := 20, color := none }]).getD
        [{ id := "1", group := "lane-1", title := "A",
           start_time := 0, end_time := 10, color := none },
         { id := "2", group := "lane-1", title := "B",
           start_time := 10, end_time := 20, color := none }])) :=
  ⟨⟨by decide, by decide⟩,
    moveResize_preserve_noOverlap
      [{ id := "1", group := "lane-1", title := "A",
         start_time := 0, end_time := 10, color := none },
       { id := "2", group := "lane-1", title := "B",
         start_time := 10, end_time := 20, color := none }]
      (by decide) (by decide) "1" "lane-2" 5 8 .right⟩

/-- C9: the placeholder lane is immutable — renaming it is a no-op and moving
any task onto it always fails with the state unchanged — while renaming any
non-placeholder lane rewrites exactly the title of the lanes carrying that id
and leaves every other lane, the order, and all ids untouched. -/
theorem placeholder_immutable_updateGroup_spec :
    (∀ (t : String) (gs : List TimelineGroup),
      TimelineStore.updateGroup NEW_LANE_ID t gs = gs) ∧
    (∀ (i : String) (s : Int) (items : List TimelineItem),
      TimelineStore.moveItemToGroup i NEW_LANE_ID s items = none) ∧
    (∀ (gid t : String) (gs : List TimelineGroup), gid ≠ NEW_LANE_ID →
      (TimelineStore.updateGroup gid t gs).length = gs.length ∧
      ∀ (k : Nat) (h1 : k < gs.length)
        (h2 : k < (TimelineStore.updateGroup gid t gs).length),
        (TimelineStore.updateGroup gid t gs)[k] =
          (if gs[k].id = gid then { gs[k] with title := t } else gs[k])) := by
  refine ⟨?_, ?_, ?_⟩
  · intro t gs
    simp [TimelineStore.updateGroup]
  · intro i s items
    simp [TimelineStore.moveItemToGroup]
  · intro gid t gs hne
    unfold TimelineStore.updateGroup
    rw [if_neg hne]
    exact ⟨List.length_map _ _, fun k h1 h2 => List.getElem_map _⟩

/-- Witness for C9: renaming an existing non-placeholder lane keeps the lane
count. -/
theorem placeholder_immutable_updateGroup_spec_witness :
    (TimelineStore.updateGroup "lane-1" "X"
      ([{ id := "lane-1", title := "a" },
        { id := "__new_lane__", title := "p" }] : List TimelineGroup)).length = 2 := by
  have h := (placeholder_immutable_updateGroup_spec.2.2 "lane-1" "X"
    ([{ id := "lane-1", title := "a" },
      { id := "__new_lane__", title := "p" }] : List TimelineGroup) (by decide)).1
  simpa using h

/-- C6 counterexample: at the exact half-way timestamp `-30000` with 1-minute
granularity, the nearest multiples `-60000` and `0` are equidistant; rounding
half away from zero must pick `-60000`, but the code (JS `Math.round`, ties
toward positive infinity) returns `0`. -/
theorem snapToMinutes_neg_half_counterexample :
    TimelineUtils.snapToMinutes (-30000) 1 = 0 ∧
    |(-60000 : Int) - (-30000)| = |(0 : Int) - (-30000)| ∧
    |(0 : Int)| < |(-60000 : Int)| ∧
    TimelineUtils.snapToMinutes (-30000) 1 ≠ -60000 := by decide

/-- C6 (amended): for every timestamp and positive granularity,
`snapToMinutes` returns the multiple of `minutes * 60000` ms nearest to the
timestamp, resolving exact half-way ties by rounding toward positive infinity
(the larger multiple), as JS `Math.round` does — not away from zero. -/
theorem snapToMinutes_nearest_tiesUp (t m : Int) (hm : 0 < m) :
    (m * 60 * 1000 ∣ TimelineUtils.snapToMinutes t m) ∧
    (∀ k : Int, |t - TimelineUtils.snapToMinutes t m| ≤ |t - k * (m * 60 * 1000)|) ∧
    (∀ k : Int, |t - k * (m * 60 * 1000)| = |t - TimelineUtils.snapToMinutes t m| →
      k * (m * 60 * 1000) ≤ TimelineUtils.snapToMinutes t m) := by
  set ms : Int := m * 60 * 1000 with hms_def
  have hms : 0 < ms := by
    have h60 : (0 : Int) < 60 := by norm_num
    have h1000 : (0 : Int) < 1000 := by norm_num
    exact mul_pos (mul_pos hm h60) h1000
  set q : Int := Int.fdiv (2 * t + ms) (2 * ms) with hq_def
  have hsnap : TimelineUtils.snapToMinutes t m = q * ms := by
    rw [hq_def, hms_def]
    rfl
  have hqe : q = (2 * t + ms) / (2 * ms) := by
    rw [hq_def, Int.fdiv_eq_ediv _ (by omega)]
  have hdm := Int.ediv_add_emod (2 * t + ms) (2 * ms)
  have hr0 : 0 ≤ (2 * t + ms) % (2 * ms) := Int.emod_nonneg _ (by omega)
  have hr1 : (2 * t + ms) % (2 * ms) < 2 * ms := Int.emod_lt_of_pos _ (by omega)
  have key : 2 * (t - q * ms) = (2 * t + ms) % (2 * ms) - ms := by
    rw [hqe]
    nlinarith [hdm]
  have hu1 : -ms ≤ 2 * (t - q * ms) := by omega
  have hu2 : 2 * (t - q * ms) < ms := by omega
  refine ⟨?_, ?_, ?_⟩
  · rw [hsnap]
    exact ⟨q, mul_comm q ms⟩
  · intro k
    rw [hsnap]
    have hk : t - k * ms = (t - q * ms) + (q - k) * ms := by ring
    rw [hk]
    rcases lt_trichotomy (q - k) 0 with hd | hd | hd
    · have hdm2 : (q - k) * ms ≤ -ms := by nlinarith
      have hneg : (t - q * ms) + (q - k) * ms ≤ 0 := by linarith
      rw [abs_of_nonpos hneg]
      rcases abs_cases (t - q * ms) with ⟨h1, h2⟩ | ⟨h1, h2⟩ <;> rw [h1] <;> linarith
    · have hk0 : (q - k) = 0 := hd
      rw [hk0]
      simp
    · have hdm2 : ms ≤ (q - k) * ms := by nlinarith
      have hpos : 0 ≤ (t - q * ms) + (q - k) * ms := by linarith
      rw [abs_of_nonneg hpos]
      rcases abs_cases (t - q * ms) with ⟨h1, h2⟩ | ⟨h1, h2⟩ <;> rw [h1] <;> linarith
  · intro k htie
    rw [hsnap] at htie ⊢
    have hk : t - k * ms = (t - q * ms) + (q - k) * ms := by ring
    rw [hk] at htie
    rcases lt_trichotomy (q - k) 0 with hd | hd | hd
    · exfalso
      have hdm2 : (q - k) * ms ≤ -ms := by nlinarith
      have hneg : (t - q * ms) + (q - k) * ms ≤ 0 := by linarith
      rw [abs_of_nonpos hneg] at htie
      rcases abs_cases (t - q * ms) with ⟨h1, h2⟩ | ⟨h1, h2⟩ <;> rw [h1] at htie <;>
        linarith
    · have : k = q := by omega
      rw [this]
    · have hdm2 : ms ≤ (q - k) * ms := by nlinarith
      have hqk : q * ms - k * ms = (q - k) * ms := by ring
      linarith

/-- Witness for C6 (amended): with 1-minute granularity the snap of `90000`
is a multiple of `60000` — namely the tie rounded up to `120000`. -/
theorem snapToMinutes_nearest_tiesUp_witness :
    ((1 : Int) * 60 * 1000 ∣ TimelineUtils.snapToMinutes 90000 1) ∧
    TimelineUtils.snapToMinutes 90000 1 = 120000 :=
  ⟨(snapToMinutes_nearest_tiesUp 90000 1 (by decide)).1, by decide⟩

/-- Core's fuelled digit printer agrees with `decDigits` once the fuel
exceeds the number. -/
theorem toDigitsCore_eq_decDigits :
    ∀ (f n : Nat) (ds : List Char), n < f →
      Nat.toDigitsCore 10 f n ds = decDigits n ++ ds := by
  intro f
  induction f with
  | zero => intro n ds h; omega
  | succ f ih =>
    intro n ds h
    by_cases h0 : n / 10 = 0
    · have hn : n < 10 := by omega
      simp only [Nat.toDigitsCore, h0, if_true, ite_true]
      rw [decDigits, dif_pos hn, Nat.mod_eq_of_lt hn]
      simp
    · have h10 : 10 ≤ n := by
        by_contra hc
        exact h0 (Nat.div_eq_of_lt (by omega))
      have hlt : n / 10 < f := by
        have := Nat.div_lt_self (show 0 < n by omega) (show 1 < 10 by omega)
        omega
      have hsplit : decDigits n = decDigits (n / 10) ++ [Nat.digitChar (n % 10)] := by
        conv_lhs => rw [decDigits]
        rw [dif_neg (by omega)]
      simp only [Nat.toDigitsCore, h0, if_false, ite_false]
      rw [ih (n / 10) (Nat.digitChar (n % 10) :: ds) hlt, hsplit]
      simp

/-- A decimal digit character evaluates back to its digit. -/
theorem digitVal_digitChar (d : Nat) (h : d < 10) :
    digitVal (Nat.digitChar d) = d := by
  interval_cases d <;> rfl

/-- Appending one digit multiplies the value by ten and adds the digit. -/
theorem charsVal_append_digit (xs : List Char) (c : Char) :
    charsVal (xs ++ [c]) = charsVal xs * 10 + digitVal c := by
  unfold charsVal
  rw [List.foldl_append]
  rfl

/-- The decimal digits of `n` evaluate back to `n`. -/
theorem charsVal_decDigits (n : Nat) : charsVal (decDigits n) = n := by
  induction n using Nat.strong_induction_on with
  | _ n ih =>
    by_cases h : n < 10
    · rw [decDigits, dif_pos h]
      have hd := digitVal_digitChar n h
      simp [charsVal, hd]
    · rw [decDigits, dif_neg h]
      rw [charsVal_append_digit]
      rw [ih (n / 10) (Nat.div_lt_self (by omega) (by omega))]
      rw [digitVal_digitChar (n % 10) (Nat.mod_lt _ (by omega))]
      omega

/-- `Nat.repr` is the string of `decDigits`. -/
theorem repr_eq_decDigits_asString (n : Nat) :
    Nat.repr n = (decDigits n).asString := by
  unfold Nat.repr Nat.toDigits
  rw [toDigitsCore_eq_decDigits (n + 1) n [] (by omega)]
  simp

/-- Decimal printing of naturals is injective. -/
theorem nat_repr_injective (a b : Nat) (h : Nat.repr a = Nat.repr b) : a = b := by
  rw [repr_eq_decDigits_asString, repr_eq_decDigits_asString] at h
  have hlist : decDigits a = decDigits b := by
    have := congrArg String.data h
    simpa [List.asString] using this
  calc a = charsVal (decDigits a) := (charsVal_decDigits a).symm
    _ = charsVal (decDigits b) := by rw [hlist]
    _ = b := charsVal_decDigits b

/-- Appending to a fixed string on the left is injective. -/
theorem string_append_right_inj (s t u : String) (h : s ++ t = s ++ u) : t = u := by
  have hd : s.data ++ t.data = s.data ++ u.data := congrArg String.data h
  exact String.ext (List.append_cancel_left hd)

/-- A generated lane id never collides with the placeholder sentinel. -/
theorem group_id_ne_placeholder (s : String) : ("group-" ++ s) ≠ NEW_LANE_ID := by
  intro h
  have hd : ("group-" ++ s).data = NEW_LANE_ID.data := congrArg String.data h
  rw [show ("group-" ++ s).data = "group-".data ++ s.data from rfl] at hd
  simp [NEW_LANE_ID] at hd

/-- Inserting a placeholder-id lane lands at the very end of the list. -/
theorem sortInsert_new_any (l : List TimelineGroup) (x : TimelineGroup)
    (hx : x.id = NEW_LANE_ID) :
    TimelineStore.sortInsert TimelineStore.jsCompare l x = l ++ [x] := by
  induction l with
  | nil => rfl
  | cons y ys ih =>
    rw [TimelineStore.sortInsert, if_neg (by simp [TimelineStore.jsCompare, hx]), ih]
    simp

/-- Inserting a non-placeholder lane into a list made of non-placeholder lanes
followed by placeholder lanes lands exactly between the two blocks. -/
theorem sortInsert_nonNew (A B : List TimelineGroup) (x : TimelineGroup)
    (hA : ∀ a ∈ A, ¬ a.id = NEW_LANE_ID) (hB : ∀ b ∈ B, b.id = NEW_LANE_ID)
    (hx : ¬ x.id = NEW_LANE_ID) :
    TimelineStore.sortInsert TimelineStore.jsCompare (A ++ B) x = A ++ x :: B := by
  induction A with
  | nil =>
    cases B with
    | nil => rfl
    | cons b bs =>
      have hb := hB b (by simp)
      simp only [List.nil_append]
      rw [TimelineStore.sortInsert, if_pos (by simp [TimelineStore.jsCompare, hx, hb])]
  | cons a as ih =>
    have ha := hA a (by simp)
    simp only [List.cons_append]
    rw [TimelineStore.sortInsert, if_neg (by simp [TimelineStore.jsCompare, hx, ha])]
    rw [ih (fun g hg => hA g (by simp [hg]))]

/-- Folding the stable insertion over a batch keeps the accumulated
"non-placeholders, then placeholders" partition, appending each kind in
arrival order. -/
theorem foldl_sortInsert_partition :
    ∀ (l A B : List TimelineGroup),
      (∀ a ∈ A, ¬ a.id = NEW_LANE_ID) → (∀ b ∈ B, b.id = NEW_LANE_ID) →
      l.foldl (TimelineStore.sortInsert TimelineStore.jsCompare) (A ++ B) =
        (A ++ l.filter fun g => !decide (g.id = NEW_LANE_ID)) ++
        (B ++ l.filter fun g => decide (g.id = NEW_LANE_ID)) := by
  intro l
  induction l with
  | nil =>
    intro A B hA hB
    simp
  | cons x xs ih =>
    intro A B hA hB
    rw [List.foldl_cons]
    by_cases hx : x.id = NEW_LANE_ID
    · rw [sortInsert_new_any (A ++ B) x hx]
      rw [show (A ++ B) ++ [x] = A ++ (B ++ [x]) by simp]
      rw [ih A (B ++ [x]) hA ?_]
      · simp [hx, List.filter_cons]
      · intro b hb
        rcases List.mem_append.1 hb with h | h
        · exact hB b h
        · simpa using (List.mem_singleton.1 h) ▸ hx
    · rw [sortInsert_nonNew A B x hA hB hx]
      rw [show A ++ x :: B = (A ++ [x]) ++ B by simp]
      rw [ih (A ++ [x]) B ?_ hB]
      · simp [hx, List.filter_cons]
      · intro a ha
        rcases List.mem_append.1 ha with h | h
        · exact hA a h
        · simpa using (List.mem_singleton.1 h) ▸ hx

/-- The modelled `Array.prototype.sort` with the `createGroup` comparator is
exactly the stable partition: non-placeholder lanes in order, then the
placeholder lanes in order. -/
theorem jsSort_partition (l : List TimelineGroup) :
    TimelineStore.jsSort TimelineStore.jsCompare l =
      (l.filter fun g => !decide (g.id = NEW_LANE_ID)) ++
      (l.filter fun g => decide (g.id = NEW_LANE_ID)) := by
  have h := foldl_sortInsert_partition l [] [] (by simp) (by simp)
  simpa [TimelineStore.jsSort] using h

/-- C7 counterexample: ids are derived from `Date.now()` alone, so two
immediately successive `createGroup` calls observing the same millisecond
return the same id, and the id returned by the second call already names a
lane present in the collection at the time of that call. -/
theorem createGroup_same_ms_id_clash :
    (TimelineStore.createGroup "Nuevo carril" 111
        (TimelineStore.createGroup "Nuevo carril" 111 []).2).1 =
      (TimelineStore.createGroup "Nuevo carril" 111 []).1 ∧
    ∃ g ∈ (TimelineStore.createGroup "Nuevo carril" 111 []).2,
      g.id = (TimelineStore.createGroup "Nuevo carril" 111
        (TimelineStore.createGroup "Nuevo carril" 111 []).2).1 := by decide

/-- C7 (amended): `createGroup` returns the id `group-` followed by the
decimal rendering of the observed `Date.now()` value and places a lane with
that id and the given title in the collection; the ids of two calls are
distinct whenever their observed clock values are distinct, and the returned
id is fresh exactly when no existing lane already carries the id built from
the same millisecond. -/
theorem createGroup_id_spec (title : String) (now1 now2 : Nat)
    (groups : List TimelineGroup) :
    ((TimelineStore.createGroup title now1 groups).1 = "group-" ++ toString now1) ∧
    (∃ g ∈ (TimelineStore.createGroup title now1 groups).2,
        g.id = "group-" ++ toString now1 ∧ g.title = title) ∧
    (now1 ≠ now2 →
      (TimelineStore.createGroup title now1 groups).1 ≠
        (TimelineStore.createGroup title now2 groups).1) ∧
    ((∀ g ∈ groups, g.id ≠ "group-" ++ toString now1) →
      ∀ g ∈ groups, g.id ≠ (TimelineStore.createGroup title now1 groups).1) := by
  refine ⟨rfl, ?_, ?_, ?_⟩
  · refine ⟨{ id := "group-" ++ toString now1, title := title }, ?_, rfl, rfl⟩
    show _ ∈ TimelineStore.jsSort TimelineStore.jsCompare
      (groups ++ [{ id := "group-" ++ toString now1, title := title }])
    rw [jsSort_partition]
    refine List.mem_append.2 (Or.inl (List.mem_filter.2 ⟨by simp, ?_⟩))
    simp [group_id_ne_placeholder]
  · intro hne hcontra
    have h0 : ("group-" ++ toString now1 : String) = "group-" ++ toString now2 :=
      hcontra
    have h1 : toString now1 = toString now2 :=
      string_append_right_inj "group-" _ _ h0
    exact hne (nat_repr_injective now1 now2 h1)
  · intro hfresh g hg
    exact hfresh g hg

/-- Witness for C7 (amended): calls observing milliseconds `1` and `2` return
distinct ids. -/
theorem createGroup_id_spec_witness :
    (TimelineStore.createGroup "t" 1 []).1 ≠ (TimelineStore.createGroup "t" 2 []).1 :=
  (createGroup_id_spec "t" 1 2 []).2.2.1 (by decide)

/-- C8: after any `createGroup` on a collection holding exactly one
placeholder lane `p`, the resulting collection is the non-placeholder lanes
in their original order, then the newly created lane, then `p`: the
placeholder is still present and last, with the new lane directly before it. -/
theorem createGroup_placeholder_last (title : String) (now : Nat)
    (groups : List TimelineGroup) (p : TimelineGroup)
    (hone : groups.filter (fun g => decide (g.id = NEW_LANE_ID)) = [p]) :
    (TimelineStore.createGroup title now groups).2 =
      (groups.filter fun g => !decide (g.id = NEW_LANE_ID)) ++
      [{ id := "group-" ++ toString now, title := title }, p] := by
  show TimelineStore.jsSort TimelineStore.jsCompare
      (groups ++ [{ id := "group-" ++ toString now, title := title }]) = _
  rw [jsSort_partition, List.filter_append, List.filter_append, hone]
  have hnew : ¬ ("group-" ++ toString now) = NEW_LANE_ID := group_id_ne_placeholder _
  simp [hnew]

/-- Witness for C8: with one real lane and the placeholder, the new lane is
inserted between them. -/
theorem createGroup_placeholder_last_witness :
    (TimelineStore.createGroup "t" 7
      ([{ id := "lane-1", title := "a" },
        { id := "__new_lane__", title := "p" }] : List TimelineGroup)).2 =
      [{ id := "lane-1", title := "a" }, { id := "group-7", title := "t" },
       { id := "__new_lane__", title := "p" }] :=
  (createGroup_placeholder_last "t" 7
    ([{ id := "lane-1", title := "a" },
      { id := "__new_lane__", title := "p" }] : List TimelineGroup)
    { id := "__new_lane__", title := "p" } (by decide)).trans (by decide)
